import Mathlib

/-!
# Model of `challenge.py` (contact scoring system)

A shallow embedding of the contact-scoring script: the lookup tables
(`ROLE_SCORES`, `COMPANY_SIZE_SCORES`, `COUNTRY_TIERS`, `COUNTRY_SCORES`),
the three scoring functions, the missing-value normalization, the weighted
final score, and the descending sort of `process_contacts`.

Scores are embedded as `Int` and the final score as `ℚ`.  The script computes
the final score with Python floats (weights `0.5`, `0.3`, `0.2`); for every
score combination reachable from the tables and defaults (role score in
`{10,20,...,100}`, size score in `{20,30,50,...,100}`, country score in
`{60,80,100}`) each product `score * weight` and the full sum are exact
integers in IEEE double arithmetic, so the rational embedding agrees exactly
with the float computation on every reachable input (checked exhaustively
over all 240 combinations).
-/

namespace Challenge

/-- Python `str.lower`, which the script applies to role and country values.
`Char.toLower` lowercases exactly the basic Latin letters; Python's `lower`
agrees with it on such strings, and every key of the lookup tables below is
basic Latin. -/
def lower (s : String) : String := ⟨s.data.map Char.toLower⟩

/-- The `ROLE_SCORES` dict of `challenge.py` (lines 31-42), as an association
list in the source's key order. -/
def ROLE_SCORES : List (String × Int) :=
  [("ceo", 100), ("cfo", 90), ("cto", 90), ("manager", 80), ("consultant", 70),
   ("engineer", 60), ("developer", 50), ("analyst", 40), ("designer", 30),
   ("intern", 10)]

/-- The `COMPANY_SIZE_SCORES` dict (lines 44-53). -/
def COMPANY_SIZE_SCORES : List (String × Int) :=
  [("10000+", 100), ("5001-10000", 90), ("1001-5000", 80), ("501-1000", 70),
   ("201-500", 60), ("51-200", 50), ("11-50", 30), ("1-10", 20)]

/-- The `tier_1` set of `COUNTRY_TIERS` (lines 55-62). -/
def COUNTRY_TIERS_tier_1 : List String :=
  ["usa", "uk", "germany", "france", "canada", "australia"]

/-- The `tier_2` set of `COUNTRY_TIERS` (lines 55-62). -/
def COUNTRY_TIERS_tier_2 : List String :=
  ["spain", "italy", "brazil", "india"]

/-- `COUNTRY_SCORES['tier_1']` (line 65). -/
def COUNTRY_SCORES_tier_1 : Int := 100

/-- `COUNTRY_SCORES['tier_2']` (line 66). -/
def COUNTRY_SCORES_tier_2 : Int := 80

/-- `COUNTRY_SCORES['other']` (line 67). -/
def COUNTRY_SCORES_other : Int := 60

/-- `assign_role_score` (lines 70-73): lowercase, then
`ROLE_SCORES.get(role, 20)`. -/
def assign_role_score (role : String) : Int :=
  let role := lower role
  (ROLE_SCORES.lookup role).getD 20

/-- `assign_company_size_score` (lines 75-77): exact-match
`COMPANY_SIZE_SCORES.get(size, 20)`, no case normalization. -/
def assign_company_size_score (size : String) : Int :=
  (COMPANY_SIZE_SCORES.lookup size).getD 20

/-- `assign_country_score` (lines 79-86): lowercase, then tier membership. -/
def assign_country_score (country : String) : Int :=
  let country := lower country
  if country ∈ COUNTRY_TIERS_tier_1 then COUNTRY_SCORES_tier_1
  else if country ∈ COUNTRY_TIERS_tier_2 then COUNTRY_SCORES_tier_2
  else COUNTRY_SCORES_other

/-- A raw CSV row as read by `pd.read_csv` (line 103): the three scored
columns may be missing (`NaN`, embedded as `none`); all other columns are
passthrough key-value pairs. -/
structure RawRecord where
  role : Option String
  company_size : Option String
  country : Option String
  other : List (String × String)
deriving DecidableEq

/-- A row after the `fillna` calls: the three scored columns hold strings. -/
structure Record where
  role : String
  company_size : String
  country : String
  other : List (String × String)
deriving DecidableEq

/-- The three `fillna` calls of `process_contacts` (lines 106-108): missing
`Role` becomes `"unknown"`, missing `Company Size` becomes `"1-10"`, missing
`Country` becomes `"unknown"`; everything else is untouched. -/
def fillna (r : RawRecord) : Record :=
  { role := r.role.getD "unknown"
    company_size := r.company_size.getD "1-10"
    country := r.country.getD "unknown"
    other := r.other }

/-- `WEIGHTS['role']` (line 92). -/
def WEIGHTS_role : ℚ := 0.5

/-- `WEIGHTS['company_size']` (line 93). -/
def WEIGHTS_company_size : ℚ := 0.3

/-- `WEIGHTS['country']` (line 94). -/
def WEIGHTS_country : ℚ := 0.2

/-- The `final_score` column (lines 116-120):
`role_score * 0.5 + company_size_score * 0.3 + country_score * 0.2`,
with the three score columns computed from the row's fields (lines 111-113). -/
def final_score (r : Record) : ℚ :=
  (assign_role_score r.role : ℚ) * WEIGHTS_role +
    (assign_company_size_score r.company_size : ℚ) * WEIGHTS_company_size +
    (assign_country_score r.country : ℚ) * WEIGHTS_country

/-- A row of the dataframe after lines 111-120: the original columns plus the
four derived score columns. -/
structure ScoredRecord where
  contact : Record
  role_score : Int
  company_size_score : Int
  country_score : Int
  final_score : ℚ
deriving DecidableEq

/-- Lines 111-120: attach the four derived score columns to a row. -/
def addScores (r : Record) : ScoredRecord :=
  { contact := r
    role_score := assign_role_score r.role
    company_size_score := assign_company_size_score r.company_size
    country_score := assign_country_score r.country
    final_score := final_score r }

/-- The comparison `df.sort_values('final_score', ...)` sorts by. -/
def leFinal (x y : ScoredRecord) : Prop := x.final_score ≤ y.final_score

instance : DecidableRel leFinal :=
  fun x y => inferInstanceAs (Decidable (x.final_score ≤ y.final_score))

instance : IsTotal ScoredRecord leFinal := ⟨fun a b => le_total a.final_score b.final_score⟩

instance : IsTrans ScoredRecord leFinal := ⟨fun _ _ _ h h' => le_trans h h'⟩

/-- `df.sort_values('final_score', ascending=False)` (line 123).  pandas
(`pandas.core.sorting.nargsort`) implements a descending sort as: reverse the
rows, argsort ascending with numpy's default `quicksort`, and reverse the
resulting indexer.  The ascending argsort is modelled by stable insertion
sort: numpy's introsort runs plain insertion sort on arrays below its cutoff
(17 elements), where this model is exact; on longer arrays introsort still
sorts but its tie order is implementation-defined. -/
def sort_values_final_score_desc (l : List ScoredRecord) : List ScoredRecord :=
  ((l.reverse.insertionSort leFinal)).reverse

/-- Line 127: `drop(columns=score_columns)` keeps only the original columns
of a row. -/
def drop_score_columns (x : ScoredRecord) : Record := x.contact

/-- The ranking step of `process_contacts` on already-normalized rows
(lines 110-127): compute the scores, sort by final score descending, and drop
the score columns.  This is the Ranker of the spec; `process_contacts` is
`rank` composed with per-row normalization. -/
def rank (l : List Record) : List Record :=
  (sort_values_final_score_desc (l.map addScores)).map drop_score_columns

/-- The in-memory core of `process_contacts` (lines 105-127): fill missing
values, score, sort descending, drop the score columns.  Reading `data.csv`
(line 103) and writing `contact_plan.csv` (line 130) are the I/O boundary
around this core. -/
def process_contacts (l : List RawRecord) : List Record :=
  rank (l.map fillna)

/-- A top-scoring contact: role `ceo`, size `10000+`, country `usa`. -/
def contact_ceo_usa : Record :=
  { role := "ceo", company_size := "10000+", country := "usa", other := [] }

/-- A bottom-scoring contact: role `intern`, size `1-10`, unranked country. -/
def contact_intern_min : Record :=
  { role := "intern", company_size := "1-10", country := "mongolia", other := [] }

/-- Every score found in a successful `ROLE_SCORES` lookup lies in `[10, 100]`. -/
theorem assign_role_score_bounds (s : String) :
    10 ≤ assign_role_score s ∧ assign_role_score s ≤ 100 := by
  simp only [assign_role_score]
  cases h : ROLE_SCORES.lookup (lower s) with
  | none => decide
  | some v =>
      have hmem : (lower s, v) ∈ ROLE_SCORES := by
        obtain ⟨l₁, l₂, heq, -⟩ := List.lookup_eq_some_iff.mp h
        rw [heq]
        exact List.mem_append_right _ (List.mem_cons_self _ _)
      have hall : ∀ p ∈ ROLE_SCORES, 10 ≤ p.2 ∧ p.2 ≤ 100 := by decide
      simpa using hall _ hmem

/-- Every score found in a successful `COMPANY_SIZE_SCORES` lookup lies in
`[20, 100]`. -/
theorem assign_company_size_score_bounds (s : String) :
    20 ≤ assign_company_size_score s ∧ assign_company_size_score s ≤ 100 := by
  simp only [assign_company_size_score]
  cases h : COMPANY_SIZE_SCORES.lookup s with
  | none => decide
  | some v =>
      have hmem : (s, v) ∈ COMPANY_SIZE_SCORES := by
        obtain ⟨l₁, l₂, heq, -⟩ := List.lookup_eq_some_iff.mp h
        rw [heq]
        exact List.mem_append_right _ (List.mem_cons_self _ _)
      have hall : ∀ p ∈ COMPANY_SIZE_SCORES, 20 ≤ p.2 ∧ p.2 ≤ 100 := by decide
      simpa using hall _ hmem

/-- The country score is one of `100`, `80`, `60`, so it lies in `[60, 100]`. -/
theorem assign_country_score_bounds (s : String) :
    60 ≤ assign_country_score s ∧ assign_country_score s ≤ 100 := by
  simp only [assign_country_score]
  split_ifs <;> decide

/-- Rows produced by `addScores` carry their own final score in the
`final_score` column. -/
theorem scored_final_eq {x : ScoredRecord} {l : List Record}
    (h : x ∈ l.map addScores) : x.final_score = final_score x.contact := by
  obtain ⟨a, -, rfl⟩ := List.mem_map.mp h
  rfl

/-- The ranked output is a permutation of the input. -/
theorem rank_perm (l : List Record) : (rank l).Perm l := by
  have hcomp : drop_score_columns ∘ addScores = id := rfl
  have h1 : ((l.map addScores).reverse.insertionSort leFinal).reverse.Perm (l.map addScores) :=
    (List.reverse_perm _).trans
      ((List.perm_insertionSort leFinal _).trans (List.reverse_perm _))
  have h2 := h1.map drop_score_columns
  rw [List.map_map, hcomp, List.map_id] at h2
  exact h2

/-- The ranked output is pairwise descending in the recomputed final score. -/
theorem rank_sorted (l : List Record) :
    (rank l).Pairwise (fun a b => final_score b ≤ final_score a) := by
  unfold rank sort_values_final_score_desc
  rw [List.pairwise_map, List.pairwise_reverse]
  have hs := List.sorted_insertionSort leFinal ((l.map addScores).reverse)
  refine List.Pairwise.imp_of_mem ?_ hs
  intro a b ha hb hab
  have ha2 : a ∈ l.map addScores := by
    have h1 := (List.perm_insertionSort leFinal ((l.map addScores).reverse)).mem_iff.mp ha
    exact List.mem_reverse.mp h1
  have hb2 : b ∈ l.map addScores := by
    have h1 := (List.perm_insertionSort leFinal ((l.map addScores).reverse)).mem_iff.mp hb
    exact List.mem_reverse.mp h1
  have ea := scored_final_eq ha2
  have eb := scored_final_eq hb2
  show final_score (drop_score_columns a) ≤ final_score (drop_score_columns b)
  simp only [drop_score_columns]
  rw [← ea, ← eb]
  exact hab

/-- C1: for every sequence of contact records, the output of ranking is sorted
by final score in descending order — every record appears no later than any
record with a strictly smaller final score.  Stated both for the ranking step
on normalized records and for the full `process_contacts` pipeline. -/
theorem ranked_output_sorted_by_final_score_descending :
    (∀ l : List Record,
      (rank l).Pairwise (fun a b => final_score b ≤ final_score a)) ∧
    (∀ l : List RawRecord,
      (process_contacts l).Pairwise (fun a b => final_score b ≤ final_score a)) :=
  ⟨rank_sorted, fun l => rank_sorted (l.map fillna)⟩

/-- C3: the `final_score` column is the fixed-weight sum
`0.5 * role_score + 0.3 * company_size_score + 0.2 * country_score`; in
particular a record whose three component scores are all `100` has final
score `100`. -/
theorem final_score_weighted_sum :
    (∀ r : Record,
      (addScores r).final_score =
        0.5 * ((addScores r).role_score : ℚ) +
          0.3 * ((addScores r).company_size_score : ℚ) +
          0.2 * ((addScores r).country_score : ℚ)) ∧
    (addScores contact_ceo_usa).role_score = 100 ∧
    (addScores contact_ceo_usa).company_size_score = 100 ∧
    (addScores contact_ceo_usa).country_score = 100 ∧
    (addScores contact_ceo_usa).final_score = 100 := by
  have h1 : assign_role_score "ceo" = 100 := by decide
  have h2 : assign_company_size_score "10000+" = 100 := by decide
  have h3 : assign_country_score "usa" = 100 := by decide
  refine ⟨fun r => ?_, by decide, by decide, by decide, ?_⟩
  · simp only [addScores, final_score, WEIGHTS_role, WEIGHTS_company_size, WEIGHTS_country]
    ring
  · simp only [addScores, final_score, contact_ceo_usa, h1, h2, h3,
      WEIGHTS_role, WEIGHTS_company_size, WEIGHTS_country]
    norm_num

/-- C4: the role score lowercases its input and looks it up in `ROLE_SCORES`,
returning 20 when absent; `"CEO"` and `"ceo"` score 100, `"unknown-role"`
scores 20, and every input (including `""`) yields a score. -/
theorem role_score_lowercase_lookup_default :
    (∀ role : String,
      assign_role_score role = (ROLE_SCORES.lookup (lower role)).getD 20) ∧
    assign_role_score "CEO" = 100 ∧ assign_role_score "ceo" = 100 ∧
    assign_role_score "unknown-role" = 20 ∧ assign_role_score "" = 20 :=
  ⟨fun _ => rfl, by decide, by decide, by decide, by decide⟩

/-- C5: the company-size score is an exact-match lookup in
`COMPANY_SIZE_SCORES` (no case normalization), returning 20 when absent;
`"10000+"` scores 100 and `"not-a-bucket"` scores 20. -/
theorem company_size_score_exact_lookup_default :
    (∀ size : String,
      assign_company_size_score size = (COMPANY_SIZE_SCORES.lookup size).getD 20) ∧
    assign_company_size_score "10000+" = 100 ∧
    assign_company_size_score "not-a-bucket" = 20 :=
  ⟨fun _ => rfl, by decide, by decide⟩

/-- C6: the country score lowercases its input and returns 100 on tier-1
membership, else 80 on tier-2 membership, else 60; `"USA"` and `"usa"` score
100, `"Spain"` scores 80, `"Mongolia"` scores 60. -/
theorem country_score_tier_cases :
    (∀ c : String,
      assign_country_score c =
        if lower c ∈ COUNTRY_TIERS_tier_1 then 100
        else if lower c ∈ COUNTRY_TIERS_tier_2 then 80 else 60) ∧
    assign_country_score "USA" = 100 ∧ assign_country_score "usa" = 100 ∧
    assign_country_score "Spain" = 80 ∧ assign_country_score "Mongolia" = 60 :=
  ⟨fun _ => rfl, by decide, by decide, by decide, by decide⟩

/-- C7: normalization replaces a missing `Role` with `"unknown"`, a missing
`Company Size` with `"1-10"`, a missing `Country` with `"unknown"`, keeps
present values as they are, and leaves all other fields unchanged. -/
theorem fillna_defaults (r : RawRecord) (v : String) :
    (fillna { r with role := none }).role = "unknown" ∧
    (fillna { r with company_size := none }).company_size = "1-10" ∧
    (fillna { r with country := none }).country = "unknown" ∧
    (fillna { r with role := some v }).role = v ∧
    (fillna { r with company_size := some v }).company_size = v ∧
    (fillna { r with country := some v }).country = v ∧
    (fillna r).other = r.other ∧
    (fillna r).role = r.role.getD "unknown" ∧
    (fillna r).company_size = r.company_size.getD "1-10" ∧
    (fillna r).country = r.country.getD "unknown" :=
  ⟨rfl, rfl, rfl, rfl, rfl, rfl, rfl, rfl, rfl, rfl⟩

/-- C8: the ranked output is the input reordered — a permutation with the
same row count; the score columns exist only on `ScoredRecord` and are
dropped, so output rows have exactly the input row schema.  For the full
pipeline, the output is a permutation of the normalized input rows. -/
theorem ranked_output_row_set_preserved :
    (∀ l : List Record, (rank l).Perm l ∧ (rank l).length = l.length) ∧
    (∀ l : List RawRecord, (process_contacts l).Perm (l.map fillna)) :=
  ⟨fun l => ⟨rank_perm l, (rank_perm l).length_eq⟩,
   fun l => rank_perm (l.map fillna)⟩

/-- C9: ranking is total on record sequences; the empty sequence maps to the
empty sequence and a one-element sequence maps to itself. -/
theorem ranking_total_empty_singleton :
    rank [] = [] ∧ (∀ r : Record, rank [r] = [r]) ∧ process_contacts [] = [] :=
  ⟨rfl, fun _ => rfl, rfl⟩

/-- C10: whatever strings the three scored fields hold, the final score lies
in `[23, 100]`; the lower bound is attained at role `intern`, size `1-10`, an
unranked country, and the upper bound at role `ceo`, size `10000+`, country
`usa`. -/
theorem final_score_bounded_23_100 :
    (∀ r : Record, 23 ≤ final_score r ∧ final_score r ≤ 100) ∧
    final_score contact_intern_min = 23 ∧ final_score contact_ceo_usa = 100 := by
  have e1 : assign_role_score "intern" = 10 := by decide
  have e2 : assign_company_size_score "1-10" = 20 := by decide
  have e3 : assign_country_score "mongolia" = 60 := by decide
  have e4 : assign_role_score "ceo" = 100 := by decide
  have e5 : assign_company_size_score "10000+" = 100 := by decide
  have e6 : assign_country_score "usa" = 100 := by decide
  refine ⟨fun r => ?_, ?_, ?_⟩
  · obtain ⟨hr1, hr2⟩ := assign_role_score_bounds r.role
    obtain ⟨hs1, hs2⟩ := assign_company_size_score_bounds r.company_size
    obtain ⟨hc1, hc2⟩ := assign_country_score_bounds r.country
    have hr1q : (10 : ℚ) ≤ (assign_role_score r.role : ℚ) := by exact_mod_cast hr1
    have hr2q : (assign_role_score r.role : ℚ) ≤ 100 := by exact_mod_cast hr2
    have hs1q : (20 : ℚ) ≤ (assign_company_size_score r.company_size : ℚ) := by
      exact_mod_cast hs1
    have hs2q : (assign_company_size_score r.company_size : ℚ) ≤ 100 := by
      exact_mod_cast hs2
    have hc1q : (60 : ℚ) ≤ (assign_country_score r.country : ℚ) := by exact_mod_cast hc1
    have hc2q : (assign_country_score r.country : ℚ) ≤ 100 := by exact_mod_cast hc2
    unfold final_score WEIGHTS_role WEIGHTS_company_size WEIGHTS_country
    constructor <;> nlinarith
  · simp only [final_score, contact_intern_min, e1, e2, e3,
      WEIGHTS_role, WEIGHTS_company_size, WEIGHTS_country]
    norm_num
  · simp only [final_score, contact_ceo_usa, e4, e5, e6,
      WEIGHTS_role, WEIGHTS_company_size, WEIGHTS_country]
    norm_num

end Challenge
